import Mathlib

/-!
Shallow embedding of the echo-app session broker.

Two server variants exist in the repository and are modelled separately:
* `Echo.Match` — the attribute-matchmaking server (role/emotion queues,
  `join_queue`, `send_message`, `disconnect`), from `src/unnamed/part_000`.
* `Echo.Room` — the code-rendezvous server (`create_room`, `join_room`,
  `send_message`, `disconnecting`), from `src/server/server.js`.

JavaScript objects are modelled as association lists (`lookupA` / `setA` /
`eraseA`); socket.io room membership is modelled per socket as the list of
rooms the socket has joined (its own-id room is excluded, matching the
`filter(r => r !== socket.id)` idiom used throughout the source).  Emitted
socket events are returned as explicit event lists.  Randomly generated room
codes are passed in as parameters.  A JavaScript `TypeError` (dereferencing an
undefined per-role queue table) is modelled by an `Option` result.
-/

namespace Echo

/-- Lookup in a JS-object-like association list (first matching key). -/
def lookupA {V : Type} : List (String × V) → String → Option V
  | [], _ => none
  | (k, v) :: rest, key => if key = k then some v else lookupA rest key

/-- JS-object assignment: update the first matching key in place, else append. -/
def setA {V : Type} : List (String × V) → String → V → List (String × V)
  | [], key, v => [(key, v)]
  | (k, w) :: rest, key, v =>
      if key = k then (k, v) :: rest else (k, w) :: setA rest key v

/-- JS `delete obj[key]`: remove the key. -/
def eraseA {V : Type} (l : List (String × V)) (key : String) : List (String × V) :=
  l.filter (fun p => decide (p.1 ≠ key))

/-- socket.io `socket.join`: rooms form a set, joining twice is a no-op. -/
def insertIfAbsent (x : String) (l : List String) : List String :=
  if x ∈ l then l else l ++ [x]

/-- The rooms a socket has joined (own-id room excluded). -/
def roomsOf (rooms : List (String × List String)) (sid : String) : List String :=
  (lookupA rooms sid).getD []

/-- The sockets currently members of a socket.io room. -/
def membersOf (rooms : List (String × List String)) (roomId : String) : List String :=
  (rooms.filter (fun p => decide (roomId ∈ p.2))).map Prod.fst

/-- `socket.join(roomId)` on the per-socket membership table. -/
def joinSio (rooms : List (String × List String)) (sid roomId : String) :
    List (String × List String) :=
  setA rooms sid (insertIfAbsent roomId (roomsOf rooms sid))

/-- A relayed payload: `{text: "..."}` or `{image: "base64..."}` (opaque to the broker). -/
structure Payload where
  text : Option String := none
  image : Option String := none
deriving DecidableEq, Repr

namespace Match

/-- Events emitted by the matchmaking server, tagged with the recipient socket. -/
inductive MEvent
  | match_found (dst : String) (roomId : String)
  | receive_message (dst : String) (data : Payload)
  | partner_typing (dst : String) (b : Bool)
  | partner_disconnected (dst : String)
deriving DecidableEq, Repr

/-- State of the matchmaking server: live sockets, the two per-emotion queue
tables (`queues = {vent: {}, listen: {}}`), and socket.io room membership. -/
structure MState where
  connected : List String
  ventQ : List (String × List String)
  listenQ : List (String × List String)
  sioRooms : List (String × List String)
deriving DecidableEq, Repr

def MState.init : MState := ⟨[], [], [], []⟩

/-- `queues[role][emotion]`, with both a missing table and a missing emotion
key reading as the empty queue (the source guards with truthiness checks). -/
def getQ (s : MState) (role emotion : String) : List String :=
  if role = "vent" then (lookupA s.ventQ emotion).getD []
  else if role = "listen" then (lookupA s.listenQ emotion).getD []
  else []

/-- Write `queues[role][emotion]`; only ever used with a valid role. -/
def setQ (s : MState) (role emotion : String) (q : List String) : MState :=
  if role = "vent" then { s with ventQ := setA s.ventQ emotion q }
  else { s with listenQ := setA s.listenQ emotion q }

/-- `addToQueue`: ensure the per-emotion array exists, push the socket at the
end.  For a role other than vent/listen, `queues[role]` is `undefined` and the
dereference throws a `TypeError`, modelled as `none`. -/
def addToQueue (s : MState) (sid role emotion : String) : Option MState :=
  if role = "vent" ∨ role = "listen" then
    some (setQ s role emotion (getQ s role emotion ++ [sid]))
  else none

/-- `role === 'vent' ? 'listen' : 'vent'`. -/
def targetRoleOf (role : String) : String :=
  if role = "vent" then "listen" else "vent"

/-- `findMatch`: look in the complementary-role queue for the same emotion;
if non-empty, shift the head, and if both sockets are live join them into a
fresh room and notify its members; the shift persists even when the popped
head is no longer connected (the ghost case), in which case no match forms. -/
def findMatch (s : MState) (sid role emotion : String) :
    Bool × MState × List MEvent :=
  let targetRole := targetRoleOf role
  match getQ s targetRole emotion with
  | [] => (false, s, [])
  | partnerId :: rest =>
    let s1 := setQ s targetRole emotion rest
    if sid ∈ s.connected ∧ partnerId ∈ s.connected then
      let roomId := "room_" ++ sid ++ "_" ++ partnerId
      let s2 := { s1 with sioRooms := joinSio (joinSio s1.sioRooms sid roomId) partnerId roomId }
      (true, s2, (membersOf s2.sioRooms roomId).map (fun m => MEvent.match_found m roomId))
    else (false, s1, [])

/-- The `join_queue` handler: try `findMatch`; if unmatched, `addToQueue`
(which can throw for an invalid role, propagated as `none`). -/
def join_queue (s : MState) (sid role emotion : String) :
    Option (MState × List MEvent) :=
  let r := findMatch s sid role emotion
  if r.1 then some (r.2.1, r.2.2)
  else
    match addToQueue r.2.1 sid role emotion with
    | some s2 => some (s2, r.2.2)
    | none => none

/-- The `send_message` handler: relay the data object verbatim to everyone
else in the sender's first room; nothing happens without a room. -/
def send_message (s : MState) (sid : String) (data : Payload) :
    MState × List MEvent :=
  match roomsOf s.sioRooms sid with
  | [] => (s, [])
  | r :: _ =>
      (s, ((membersOf s.sioRooms r).filter (fun m => decide (m ≠ sid))).map
        (fun m => MEvent.receive_message m data))

/-- The `disconnect` handler body: notify the partner in the first room, if
any.  It never touches the queues (the source's own comment records this gap). -/
def disconnectHandler (s : MState) (sid : String) : List MEvent :=
  match roomsOf s.sioRooms sid with
  | [] => []
  | r :: _ =>
      ((membersOf s.sioRooms r).filter (fun m => decide (m ≠ sid))).map
        (fun m => MEvent.partner_disconnected m)

/-- Full disconnect: run the handler, then the transport removes the socket
from the live set and from all socket.io rooms. -/
def disconnect (s : MState) (sid : String) : MState × List MEvent :=
  (⟨s.connected.filter (fun c => decide (c ≠ sid)), s.ventQ, s.listenQ,
    eraseA s.sioRooms sid⟩,
   disconnectHandler s sid)

/-- A new transport connection. -/
def connect (s : MState) (sid : String) : MState :=
  { s with connected := s.connected ++ [sid], sioRooms := setA s.sioRooms sid [] }

/-- Inbound actions of the matchmaking server. -/
inductive MAct
  | connect (sid : String)
  | join_queue (sid role emotion : String)
  | send_message (sid : String) (data : Payload)
  | disconnect (sid : String)
deriving DecidableEq, Repr

def mStep (s : MState) : MAct → Option (MState × List MEvent)
  | MAct.connect sid => some (connect s sid, [])
  | MAct.join_queue sid role emotion => join_queue s sid role emotion
  | MAct.send_message sid data => some (send_message s sid data)
  | MAct.disconnect sid => some (disconnect s sid)

/-- Run a trace from a state, accumulating emitted events. -/
def mRun (s : MState) : List MAct → Option (MState × List MEvent)
  | [] => some (s, [])
  | a :: rest =>
    match mStep s a with
    | none => none
    | some (s1, evs) =>
      match mRun s1 rest with
      | none => none
      | some (s2, evs2) => some (s2, evs ++ evs2)

end Match

namespace Room

/-- Events emitted by the rendezvous server, tagged with the recipient socket. -/
inductive REvent
  | room_created (dst : String) (code : String)
  | start_chat (dst : String)
  | errorMsg (dst : String) (msg : String)
  | receive_message (dst : String) (data : Payload)
  | partner_left (dst : String)
deriving DecidableEq, Repr

/-- `{ users: [...], locked: bool }`. -/
structure RoomRec where
  users : List String
  locked : Bool
deriving DecidableEq, Repr

/-- State of the rendezvous server: live sockets, `activeRooms`, and
socket.io room membership. -/
structure RState where
  connected : List String
  activeRooms : List (String × RoomRec)
  sioRooms : List (String × List String)
deriving DecidableEq, Repr

def RState.init : RState := ⟨[], [], []⟩

def msgNotFound : String := "Invalid Code. Room does not exist."

def msgFull : String := "Room is full or locked."

/-- The `create_room` handler; the randomly generated 6-digit code is an
input (collisions silently overwrite the slot, as in the source). -/
def create_room (s : RState) (sid code : String) : RState × List REvent :=
  let s1 := { s with activeRooms := setA s.activeRooms code ⟨[sid], false⟩ }
  let s2 := { s1 with sioRooms := joinSio s1.sioRooms sid code }
  (s2, [REvent.room_created sid code])

/-- The `join_room` handler: `NotFound` when the code has no room, `Full`
when locked or already holding 2 users; otherwise push the joiner, join the
socket.io room, lock, and emit `start_chat` to the room. -/
def join_room (s : RState) (sid code : String) : RState × List REvent :=
  match lookupA s.activeRooms code with
  | none => (s, [REvent.errorMsg sid msgNotFound])
  | some room =>
    if room.locked ∨ 2 ≤ room.users.length then
      (s, [REvent.errorMsg sid msgFull])
    else
      let room2 : RoomRec := ⟨room.users ++ [sid], true⟩
      let s1 := { s with activeRooms := setA s.activeRooms code room2 }
      let s2 := { s1 with sioRooms := joinSio s1.sioRooms sid code }
      (s2, (membersOf s2.sioRooms code).map (fun m => REvent.start_chat m))

/-- The `send_message` handler: relay the data object verbatim to everyone
else in the sender's first room; nothing happens without a room. -/
def send_message (s : RState) (sid : String) (data : Payload) :
    RState × List REvent :=
  match roomsOf s.sioRooms sid with
  | [] => (s, [])
  | r :: _ =>
      (s, ((membersOf s.sioRooms r).filter (fun m => decide (m ≠ sid))).map
        (fun m => REvent.receive_message m data))

/-- The `disconnecting` handler body: for each room the socket occupies that
is still active, notify the others and delete the room record. -/
def disconnecting (s : RState) (sid : String) : RState × List REvent :=
  (roomsOf s.sioRooms sid).foldl
    (fun acc code =>
      match lookupA acc.1.activeRooms code with
      | none => acc
      | some _ =>
          ({ acc.1 with activeRooms := eraseA acc.1.activeRooms code },
           acc.2 ++ ((membersOf acc.1.sioRooms code).filter
             (fun m => decide (m ≠ sid))).map (fun m => REvent.partner_left m)))
    (s, [])

/-- Full disconnect: run `disconnecting` while the socket is still in its
rooms, then the transport removes the socket from the live set and rooms. -/
def disconnect (s : RState) (sid : String) : RState × List REvent :=
  let r := disconnecting s sid
  (⟨r.1.connected.filter (fun c => decide (c ≠ sid)), r.1.activeRooms,
    eraseA r.1.sioRooms sid⟩,
   r.2)

/-- A new transport connection. -/
def connect (s : RState) (sid : String) : RState :=
  { s with connected := s.connected ++ [sid], sioRooms := setA s.sioRooms sid [] }

/-- Inbound actions of the rendezvous server (room codes as explicit inputs). -/
inductive RAct
  | connect (sid : String)
  | create_room (sid code : String)
  | join_room (sid code : String)
  | send_message (sid : String) (data : Payload)
  | disconnect (sid : String)
deriving DecidableEq, Repr

def rStep (s : RState) : RAct → RState × List REvent
  | RAct.connect sid => (connect s sid, [])
  | RAct.create_room sid code => create_room s sid code
  | RAct.join_room sid code => join_room s sid code
  | RAct.send_message sid data => send_message s sid data
  | RAct.disconnect sid => disconnect s sid

/-- Run a trace from a state, accumulating emitted events. -/
def rRun (s : RState) : List RAct → RState × List REvent
  | [] => (s, [])
  | a :: rest =>
    let r1 := rStep s a
    let r2 := rRun r1.1 rest
    (r2.1, r1.2 ++ r2.2)

end Room

/-! ### Concrete states used by the counterexamples and witnesses -/

/-- State reached by: connect A; A joins the listen queue for anx; A
disconnects; connect B.  The disconnected A is still queued. -/
def ghostState : Match.MState := ⟨["B"], [], [("anx", ["A"])], [("B", [])]⟩

/-- State after B then requests a vent match for anx on `ghostState`:
the ghost A was popped, no match formed, and B was queued. -/
def ghostState2 : Match.MState := ⟨["B"], [("anx", ["B"])], [("anx", [])], [("B", [])]⟩

/-- State reached by: connect A; A joins the vent queue for anx; A calls
join_queue again as listen for anx.  A has been matched with itself. -/
def selfMatchState : Match.MState := ⟨["A"], [("anx", [])], [], [("A", ["room_A_A"])]⟩

/-- State reached by: connect A; A joins the vent queue for anx; A
disconnects.  The queues still hold the disconnected A. -/
def c2State : Match.MState := ⟨[], [("anx", ["A"])], [], []⟩

/-- A state with a live listener B and a live vent waiter A, used to
exercise the pairing path on concrete data. -/
def pairReadyState : Match.MState :=
  ⟨["A", "B"], [("anx", ["A"])], [], [("A", []), ("B", [])]⟩

/-- A two-member chat state for the matchmaking server: A and B share a room. -/
def mChatState : Match.MState :=
  ⟨["A", "B"], [], [], [("A", ["room_A_B"]), ("B", ["room_A_B"])]⟩

/-- A two-member chat state for the rendezvous server: A and B share room 482913,
which is locked. -/
def rChatState : Room.RState :=
  ⟨["A", "B"], [("482913", ⟨["A", "B"], true⟩)], [("A", ["482913"]), ("B", ["482913"])]⟩

/-! ### Association-list and membership lemmas -/

theorem lookupA_setA_self {V : Type} (l : List (String × V)) (k : String) (v : V) :
    lookupA (setA l k v) k = some v := by
  induction l with
  | nil => simp [setA, lookupA]
  | cons p rest ih =>
    obtain ⟨a, b⟩ := p
    by_cases h : k = a
    · simp [setA, h, lookupA]
    · simp [setA, h, lookupA, ih]

theorem lookupA_setA_ne {V : Type} (l : List (String × V)) (k k' : String) (v : V)
    (h : k' ≠ k) : lookupA (setA l k v) k' = lookupA l k' := by
  induction l with
  | nil => simp [setA, lookupA, h]
  | cons p rest ih =>
    obtain ⟨a, b⟩ := p
    by_cases ha : k = a
    · subst ha
      simp [setA, lookupA, h]
    · by_cases hb : k' = a
      · simp [setA, ha, lookupA, hb]
      · simp [setA, ha, lookupA, hb, ih]

theorem lookupA_eraseA_self {V : Type} (l : List (String × V)) (k : String) :
    lookupA (eraseA l k) k = none := by
  induction l with
  | nil => simp [eraseA, lookupA]
  | cons p rest ih =>
    obtain ⟨a, b⟩ := p
    by_cases h : a = k
    · simpa [eraseA, List.filter, h] using ih
    · have : ¬(k = a) := fun hk => h hk.symm
      simpa [eraseA, List.filter, h, lookupA, this] using ih

theorem eraseA_of_lookupA_none {V : Type} (l : List (String × V)) (k : String)
    (h : lookupA l k = none) : eraseA l k = l := by
  induction l with
  | nil => simp [eraseA]
  | cons p rest ih =>
    obtain ⟨a, b⟩ := p
    by_cases ha : k = a
    · simp [lookupA, ha] at h
    · have hne : a ≠ k := fun hk => ha hk.symm
      have h2 : lookupA rest k = none := by simpa [lookupA, ha] using h
      simp [eraseA, List.filter, hne] at ih ⊢
      exact ih h2

theorem mem_insertIfAbsent_self (x : String) (l : List String) :
    x ∈ insertIfAbsent x l := by
  by_cases h : x ∈ l
  · simp [insertIfAbsent, h]
  · simp [insertIfAbsent, h]

theorem mem_insertIfAbsent_of_mem (x y : String) (l : List String) (h : y ∈ l) :
    y ∈ insertIfAbsent x l := by
  by_cases hx : x ∈ l
  · simpa [insertIfAbsent, hx] using h
  · simp [insertIfAbsent, hx, h]

theorem mem_membersOf_of_entry (rooms : List (String × List String))
    (p : String × List String) (r : String) (hp : p ∈ rooms) (hr : r ∈ p.2) :
    p.1 ∈ membersOf rooms r := by
  unfold membersOf
  exact List.mem_map.mpr ⟨p, List.mem_filter.mpr ⟨hp, by simpa using hr⟩, rfl⟩

theorem entry_of_lookupA {V : Type} (l : List (String × V)) (k : String) (v : V)
    (h : lookupA l k = some v) : (k, v) ∈ l := by
  induction l with
  | nil => simp [lookupA] at h
  | cons p rest ih =>
    obtain ⟨a, b⟩ := p
    by_cases ha : k = a
    · subst ha
      simp [lookupA] at h
      simp [h]
    · have h2 : lookupA rest k = some v := by simpa [lookupA, ha] using h
      exact List.mem_cons_of_mem _ (ih h2)

theorem mem_setA_of_entry_ne {V : Type} (l : List (String × V)) (k : String) (v : V)
    (p : String × V) (hp : p ∈ l) (hne : p.1 ≠ k) : p ∈ setA l k v := by
  induction l with
  | nil => simp at hp
  | cons q rest ih =>
    obtain ⟨a, b⟩ := q
    by_cases ha : k = a
    · rcases List.mem_cons.mp hp with h | h
      · exact absurd (by rw [h]; exact ha.symm) hne
      · simp only [setA, if_pos ha]
        exact List.mem_cons_of_mem _ h
    · rcases List.mem_cons.mp hp with h | h
      · simp only [setA, if_neg ha]
        rw [h]
        exact List.mem_cons_self _ _
      · simp only [setA, if_neg ha]
        exact List.mem_cons_of_mem _ (ih h)

theorem mem_membersOf_joinSio_self (rooms : List (String × List String))
    (a r : String) : a ∈ membersOf (joinSio rooms a r) r := by
  have h := lookupA_setA_self rooms a (insertIfAbsent r (roomsOf rooms a))
  exact mem_membersOf_of_entry _ (a, insertIfAbsent r (roomsOf rooms a)) r
    (entry_of_lookupA _ _ _ h) (mem_insertIfAbsent_self r _)

theorem mem_membersOf_joinSio_of_mem (rooms : List (String × List String))
    (a b r : String) (h : a ∈ membersOf rooms r) :
    a ∈ membersOf (joinSio rooms b r) r := by
  by_cases hab : a = b
  · subst hab
    exact mem_membersOf_joinSio_self rooms a r
  · unfold membersOf at h
    rcases List.mem_map.mp h with ⟨p, hp, hpa⟩
    rcases List.mem_filter.mp hp with ⟨hmem, hr⟩
    have hne : p.1 ≠ b := by
      rw [hpa]
      exact hab
    have hp2 : p ∈ joinSio rooms b r :=
      mem_setA_of_entry_ne rooms b _ p hmem hne
    have := mem_membersOf_of_entry (joinSio rooms b r) p r hp2 (by simpa using hr)
    rwa [hpa] at this

/-! ### Queue-table lemmas for the matchmaking server -/

namespace Match

theorem targetRoleOf_valid (role : String) :
    targetRoleOf role = "vent" ∨ targetRoleOf role = "listen" := by
  unfold targetRoleOf
  by_cases h : role = "vent"
  · simp [h]
  · simp [h]

theorem targetRoleOf_ne (role : String) : targetRoleOf role ≠ role := by
  unfold targetRoleOf
  by_cases h : role = "vent"
  · subst h
    decide
  · simpa [h] using fun he => h he.symm

theorem getQ_setQ_self (s : MState) (role emotion : String) (q : List String)
    (h : role = "vent" ∨ role = "listen") :
    getQ (setQ s role emotion q) role emotion = q := by
  rcases h with h | h <;> subst h <;>
    simp [getQ, setQ, lookupA_setA_self]

theorem getQ_setQ_target (s : MState) (role emotion e' : String) (q : List String)
    (hrole : role = "vent" ∨ role = "listen") :
    getQ (setQ s (targetRoleOf role) emotion q) role e' = getQ s role e' := by
  rcases hrole with h | h <;> subst h <;>
    simp [getQ, setQ, targetRoleOf]

theorem getQ_sioUpdate (s : MState) (x : List (String × List String))
    (role e : String) : getQ { s with sioRooms := x } role e = getQ s role e := rfl

theorem getQ_setQ_of_target (s : MState) (role emotion e' : String) (q : List String)
    (hrole : role = "vent" ∨ role = "listen") :
    getQ (setQ s role emotion q) (targetRoleOf role) e' = getQ s (targetRoleOf role) e' := by
  rcases hrole with h | h <;> subst h <;>
    simp [getQ, setQ, targetRoleOf]

/-- With a valid role, `join_queue` never reaches the undefined dereference. -/
theorem join_queue_total (s : MState) (sid role emotion : String)
    (hrole : role = "vent" ∨ role = "listen") :
    (join_queue s sid role emotion).isSome = true := by
  cases hq : getQ s (targetRoleOf role) emotion with
  | nil =>
    have hfm : findMatch s sid role emotion = (false, s, []) := by
      simp only [findMatch]
      rw [hq]
    simp [join_queue, hfm, addToQueue, if_pos hrole]
  | cons p rest =>
    by_cases hc : sid ∈ s.connected ∧ p ∈ s.connected
    · have hfm1 : (findMatch s sid role emotion).1 = true := by
        simp only [findMatch]
        rw [hq]
        simp only [if_pos hc]
      simp [join_queue, hfm1]
    · have hfm : findMatch s sid role emotion =
          (false, setQ s (targetRoleOf role) emotion rest, []) := by
        simp only [findMatch]
        rw [hq]
        simp only [if_neg hc]
      simp [join_queue, hfm, addToQueue, if_pos hrole]

end Match

/-! ### Claim theorems -/

/-- **C1** (amended).  For a `join_queue` call with a valid role: if the
complementary-role waiting list for the tag is empty, the requester is
appended to its own (role, tag) list and no session forms; if it is
non-empty *and its head is still a live connection*, the head is popped, a
session room is formed from the popped identifier and the requester, and
both are notified with `match_found`, the requester's own list being left
untouched; if it is non-empty but its head has disconnected (a ghost), the
head is still popped, yet **no** session forms and the requester is appended
— the last case is what forces the amendment of the claim as stated. -/
theorem c1_requestMatch_cases (s : Match.MState) (sid role emotion : String)
    (hrole : role = "vent" ∨ role = "listen") :
    (Match.getQ s (Match.targetRoleOf role) emotion = [] →
       Match.join_queue s sid role emotion =
         some (Match.setQ s role emotion (Match.getQ s role emotion ++ [sid]), [])) ∧
    (∀ p rest, Match.getQ s (Match.targetRoleOf role) emotion = p :: rest →
       sid ∈ s.connected → p ∈ s.connected →
       ∀ s2 evs, Match.join_queue s sid role emotion = some (s2, evs) →
         Match.getQ s2 (Match.targetRoleOf role) emotion = rest ∧
         Match.getQ s2 role emotion = Match.getQ s role emotion ∧
         Match.MEvent.match_found sid ("room_" ++ sid ++ "_" ++ p) ∈ evs ∧
         Match.MEvent.match_found p ("room_" ++ sid ++ "_" ++ p) ∈ evs) ∧
    (∀ p rest, Match.getQ s (Match.targetRoleOf role) emotion = p :: rest →
       p ∉ s.connected →
       ∀ s2 evs, Match.join_queue s sid role emotion = some (s2, evs) →
         evs = [] ∧
         Match.getQ s2 (Match.targetRoleOf role) emotion = rest ∧
         Match.getQ s2 role emotion = Match.getQ s role emotion ++ [sid]) ∧
    (Match.join_queue s sid role emotion).isSome = true := by
  refine ⟨?_, ?_, ?_, ?_⟩
  · intro h
    have hfm : Match.findMatch s sid role emotion = (false, s, []) := by
      simp only [Match.findMatch]
      rw [h]
    simp [Match.join_queue, hfm, Match.addToQueue, if_pos hrole]
  · intro p rest hq hsid hp s2 evs heq
    have hfm : Match.findMatch s sid role emotion =
        (true,
         { Match.setQ s (Match.targetRoleOf role) emotion rest with
             sioRooms := joinSio (joinSio
               (Match.setQ s (Match.targetRoleOf role) emotion rest).sioRooms
               sid ("room_" ++ sid ++ "_" ++ p)) p ("room_" ++ sid ++ "_" ++ p) },
         (membersOf (joinSio (joinSio
             (Match.setQ s (Match.targetRoleOf role) emotion rest).sioRooms
             sid ("room_" ++ sid ++ "_" ++ p)) p ("room_" ++ sid ++ "_" ++ p))
             ("room_" ++ sid ++ "_" ++ p)).map
           (fun m => Match.MEvent.match_found m ("room_" ++ sid ++ "_" ++ p))) := by
      simp only [Match.findMatch]
      rw [hq]
      simp only [if_pos (And.intro hsid hp)]
    have hjq : Match.join_queue s sid role emotion =
        some ((Match.findMatch s sid role emotion).2.1,
              (Match.findMatch s sid role emotion).2.2) := by
      simp [Match.join_queue, hfm]
    rw [hjq, hfm] at heq
    rw [Option.some_inj, Prod.mk.injEq] at heq
    obtain ⟨hs2, hevs⟩ := heq
    subst hs2
    subst hevs
    refine ⟨?_, ?_, ?_, ?_⟩
    · rw [Match.getQ_sioUpdate]
      exact Match.getQ_setQ_self s _ emotion rest (Match.targetRoleOf_valid role)
    · rw [Match.getQ_sioUpdate]
      exact Match.getQ_setQ_target s role emotion emotion rest hrole
    · exact List.mem_map.mpr
        ⟨sid, mem_membersOf_joinSio_of_mem _ sid p _
          (mem_membersOf_joinSio_self _ sid _), rfl⟩
    · exact List.mem_map.mpr
        ⟨p, mem_membersOf_joinSio_self _ p _, rfl⟩
  · intro p rest hq hp s2 evs heq
    have hfm : Match.findMatch s sid role emotion =
        (false, Match.setQ s (Match.targetRoleOf role) emotion rest, []) := by
      simp only [Match.findMatch]
      rw [hq]
      simp only [hp, and_false, if_false]
    rw [Match.join_queue] at heq
    simp only [hfm, Match.addToQueue, if_pos hrole] at heq
    simp at heq
    obtain ⟨hs2, hevs⟩ := heq
    subst hs2
    subst hevs
    refine ⟨rfl, ?_, ?_⟩
    · rw [Match.getQ_setQ_of_target _ _ _ _ _ hrole]
      exact Match.getQ_setQ_self s _ emotion rest (Match.targetRoleOf_valid role)
    · rw [Match.getQ_setQ_self _ _ _ _ hrole,
          Match.getQ_setQ_target s role emotion emotion rest hrole]
  · exact Match.join_queue_total s sid role emotion hrole

/-- **C1** witness: on the initial state (all lists empty) a vent request is
appended to the vent/anx list and no session forms. -/
theorem c1_requestMatch_cases_witness :
    Match.join_queue Match.MState.init ("a") ("vent") ("anx") =
      some (Match.setQ Match.MState.init ("vent") ("anx")
        (Match.getQ Match.MState.init ("vent") ("anx") ++ ["a"]), []) :=
  (c1_requestMatch_cases Match.MState.init ("a") ("vent") ("anx") (Or.inl rfl)).1 rfl

/-- **C1** counterexample: the waiting list for (listen, anx) is non-empty —
it holds the disconnected A — yet B's `join_queue` forms no session, emits
no `match_found`, and appends B to the vent/anx list, contradicting the
claim as stated.  The pre-state is reached through the public interface. -/
theorem c1_counterexample :
    Match.mRun Match.MState.init
        [Match.MAct.connect ("A"), Match.MAct.join_queue ("A") ("listen") ("anx"),
         Match.MAct.disconnect ("A"), Match.MAct.connect ("B")]
      = some (ghostState, []) ∧
    Match.getQ ghostState (Match.targetRoleOf ("vent")) ("anx") = ["A"] ∧
    Match.join_queue ghostState ("B") ("vent") ("anx") = some (ghostState2, []) ∧
    Match.getQ ghostState2 ("vent") ("anx") = ["B"] ∧
    Match.getQ ghostState2 ("listen") ("anx") = [] :=
  ⟨rfl, rfl, rfl, rfl, rfl⟩

/-- **C2**: evaluating the disconnect handler at the failing input shows the
code leaves the disconnected A in the vent/anx waiting list — the handler
never touches the queues, so the claimed invariant fails on the code. -/
theorem c2_disconnect_leaves_ghost :
    Match.mRun Match.MState.init
        [Match.MAct.connect ("A"), Match.MAct.join_queue ("A") ("vent") ("anx"),
         Match.MAct.disconnect ("A")]
      = some (c2State, []) ∧
    "A" ∈ Match.getQ c2State ("vent") ("anx") ∧
    "A" ∉ c2State.connected :=
  ⟨rfl, by decide, by decide⟩

/-- **C3** (amended).  The complementary role always differs from the
requester's role, so the popped partner — drawn from the complementary-role
queue — was enqueued by a request of a different role: two requests with the
same role and tag are never paired.  A match can only occur when that queue
is non-empty, the pair is the requester and the queue head, and the
requester is not paired with itself *provided it is not already waiting in
the complementary-role queue for that tag*; a connection that queues under
one role and then requests the complementary role with the same tag IS
paired with itself, which forces the amendment. -/
theorem c3_pairing (s : Match.MState) (sid role emotion : String) :
    Match.targetRoleOf role ≠ role ∧
    ((Match.findMatch s sid role emotion).1 = true →
       Match.getQ s (Match.targetRoleOf role) emotion ≠ []) ∧
    (∀ p rest, Match.getQ s (Match.targetRoleOf role) emotion = p :: rest →
       (Match.findMatch s sid role emotion).1 = true →
       sid ∈ membersOf (Match.findMatch s sid role emotion).2.1.sioRooms
           ("room_" ++ sid ++ "_" ++ p) ∧
       p ∈ membersOf (Match.findMatch s sid role emotion).2.1.sioRooms
           ("room_" ++ sid ++ "_" ++ p) ∧
       (sid ∉ Match.getQ s (Match.targetRoleOf role) emotion → p ≠ sid)) := by
  refine ⟨Match.targetRoleOf_ne role, ?_, ?_⟩
  · intro hm hq0
    have hfm : Match.findMatch s sid role emotion = (false, s, []) := by
      simp only [Match.findMatch]
      rw [hq0]
    rw [hfm] at hm
    simp at hm
  · intro p rest hq hm
    by_cases hc : sid ∈ s.connected ∧ p ∈ s.connected
    · have hfm : Match.findMatch s sid role emotion =
          (true,
           { Match.setQ s (Match.targetRoleOf role) emotion rest with
               sioRooms := joinSio (joinSio
                 (Match.setQ s (Match.targetRoleOf role) emotion rest).sioRooms
                 sid ("room_" ++ sid ++ "_" ++ p)) p ("room_" ++ sid ++ "_" ++ p) },
           (membersOf (joinSio (joinSio
               (Match.setQ s (Match.targetRoleOf role) emotion rest).sioRooms
               sid ("room_" ++ sid ++ "_" ++ p)) p ("room_" ++ sid ++ "_" ++ p))
               ("room_" ++ sid ++ "_" ++ p)).map
             (fun m => Match.MEvent.match_found m ("room_" ++ sid ++ "_" ++ p))) := by
        simp only [Match.findMatch]
        rw [hq]
        simp only [if_pos hc]
      rw [hfm]
      refine ⟨?_, ?_, ?_⟩
      · exact mem_membersOf_joinSio_of_mem _ sid p _
          (mem_membersOf_joinSio_self _ sid _)
      · exact mem_membersOf_joinSio_self _ p _
      · intro hns hps
        apply hns
        rw [hq, hps]
        exact List.mem_cons_self _ _
    · have hfm : Match.findMatch s sid role emotion =
          (false, Match.setQ s (Match.targetRoleOf role) emotion rest, []) := by
        simp only [Match.findMatch]
        rw [hq]
        simp only [if_neg hc]
      rw [hfm] at hm
      simp at hm

/-- **C3** witness: on a state with live A waiting as vent for anx, B's
listen request pairs B with the head A, both land in room `room_B_A`, and
since B is not in the vent queue the partner is not B itself. -/
theorem c3_pairing_witness :
    "B" ∈ membersOf (Match.findMatch pairReadyState ("B") ("listen") ("anx")).2.1.sioRooms
        ("room_" ++ "B" ++ "_" ++ "A") ∧
    "A" ∈ membersOf (Match.findMatch pairReadyState ("B") ("listen") ("anx")).2.1.sioRooms
        ("room_" ++ "B" ++ "_" ++ "A") ∧
    ("A" : String) ≠ "B" := by
  have h := (c3_pairing pairReadyState ("B") ("listen") ("anx")).2.2 ("A") [] rfl rfl
  exact ⟨h.1, h.2.1, h.2.2 (by decide)⟩

/-- **C3** counterexample: A queues as vent for anx, then calls `join_queue`
as listen for anx; A is popped as its own partner and matched with itself in
room `room_A_A`, whose member list is exactly `[A]`. -/
theorem c3_counterexample :
    Match.mRun Match.MState.init
        [Match.MAct.connect ("A"), Match.MAct.join_queue ("A") ("vent") ("anx"),
         Match.MAct.join_queue ("A") ("listen") ("anx")]
      = some (selfMatchState, [Match.MEvent.match_found ("A") ("room_A_A")]) ∧
    membersOf selfMatchState.sioRooms ("room_A_A") = ["A"] ∧
    roomsOf selfMatchState.sioRooms ("A") = ["room_A_A"] :=
  ⟨rfl, rfl, rfl⟩

/-- **C9**: with role vent or listen, the `join_queue` event is processed
without reaching an error branch (both the complementary lookup and the
append are on defined tables); with any other role value, a `join_queue`
call that reaches the append dereferences an undefined per-role table
(modelled as `none`), as witnessed at role "seeker" on the initial state. -/
theorem c9_join_queue_role_totality :
    (∀ (s : Match.MState) (sid role emotion : String),
       role = "vent" ∨ role = "listen" →
       (Match.join_queue s sid role emotion).isSome = true) ∧
    Match.join_queue Match.MState.init ("a") ("seeker") ("anx") = none :=
  ⟨fun s sid role emotion hrole => Match.join_queue_total s sid role emotion hrole, rfl⟩

/-- **C9** witness: a vent-role call on the initial state succeeds. -/
theorem c9_join_queue_role_totality_witness :
    (Match.join_queue Match.MState.init ("a") ("vent") ("anx")).isSome = true :=
  c9_join_queue_role_totality.1 Match.MState.init ("a") ("vent") ("anx") (Or.inl rfl)

/-- **C4**: `joinRoom` fails with NotFound exactly when no room exists for
the code, fails with Full exactly when the room is locked or already holds
two occupants, and on either failure the state is returned unchanged;
on the success path no error event is emitted. -/
theorem c4_joinRoom_failures (s : Room.RState) (sid code : String) :
    (lookupA s.activeRooms code = none →
       Room.join_room s sid code = (s, [Room.REvent.errorMsg sid Room.msgNotFound])) ∧
    (∀ room, lookupA s.activeRooms code = some room →
       room.locked = true ∨ 2 ≤ room.users.length →
       Room.join_room s sid code = (s, [Room.REvent.errorMsg sid Room.msgFull])) ∧
    (∀ room, lookupA s.activeRooms code = some room →
       room.locked = false → room.users.length < 2 →
       ∀ e m, Room.REvent.errorMsg e m ∉ (Room.join_room s sid code).2) := by
  refine ⟨?_, ?_, ?_⟩
  · intro h
    simp [Room.join_room, h]
  · intro room h hful
    simp only [Room.join_room, h]
    rw [if_pos hful]
  · intro room h hlock hlen e m
    simp only [Room.join_room, h]
    rw [if_neg ?hc]
    case hc =>
      rintro (hl | hn)
      · rw [hlock] at hl
        exact Bool.false_ne_true hl
      · omega
    simp

/-- **C4** witness: an unknown code fails NotFound on the empty state with
no mutation; a locked two-occupant room fails Full with no mutation. -/
theorem c4_joinRoom_failures_witness :
    Room.join_room Room.RState.init ("x") ("111111")
      = (Room.RState.init, [Room.REvent.errorMsg ("x") Room.msgNotFound]) ∧
    Room.join_room rChatState ("C") ("482913")
      = (rChatState, [Room.REvent.errorMsg ("C") Room.msgFull]) :=
  ⟨(c4_joinRoom_failures Room.RState.init ("x") ("111111")).1 rfl,
   (c4_joinRoom_failures rChatState ("C") ("482913")).2.1 ⟨["A", "B"], true⟩ rfl
     (Or.inl rfl)⟩

/-- **C5**: `createRoom` immediately followed by `joinRoom` with the
returned code succeeds — the room's occupant list becomes exactly
`[creator, joiner]`, the room is locked, both occupants receive
`start_chat` — and any subsequent `joinRoom` with the same code, from any
third participant, fails with Full and leaves the state unchanged. -/
theorem c5_create_then_join (s : Room.RState) (c j code : String) :
    lookupA (Room.join_room (Room.create_room s c code).1 j code).1.activeRooms code
      = some ⟨[c, j], true⟩ ∧
    Room.REvent.start_chat c ∈ (Room.join_room (Room.create_room s c code).1 j code).2 ∧
    Room.REvent.start_chat j ∈ (Room.join_room (Room.create_room s c code).1 j code).2 ∧
    (∀ t, Room.join_room (Room.join_room (Room.create_room s c code).1 j code).1 t code
        = ((Room.join_room (Room.create_room s c code).1 j code).1,
           [Room.REvent.errorMsg t Room.msgFull])) := by
  have h1 : lookupA (Room.create_room s c code).1.activeRooms code
      = some ⟨[c], false⟩ := lookupA_setA_self _ _ _
  have hJ : Room.join_room (Room.create_room s c code).1 j code =
      ({ (Room.create_room s c code).1 with
           activeRooms := setA (Room.create_room s c code).1.activeRooms code
             ⟨[c] ++ [j], true⟩,
           sioRooms := joinSio (Room.create_room s c code).1.sioRooms j code },
       (membersOf (joinSio (Room.create_room s c code).1.sioRooms j code) code).map
         (fun m => Room.REvent.start_chat m)) := by
    simp only [Room.join_room, h1]
    rw [if_neg ?hc]
    case hc =>
      rintro (hl | hn)
      · exact Bool.false_ne_true hl
      · simp at hn
  refine ⟨?_, ?_, ?_, ?_⟩
  · rw [hJ]
    exact lookupA_setA_self _ _ _
  · rw [hJ]
    refine List.mem_map.mpr ⟨c, ?_, rfl⟩
    exact mem_membersOf_joinSio_of_mem _ c j _
      (mem_membersOf_joinSio_self s.sioRooms c code)
  · rw [hJ]
    exact List.mem_map.mpr ⟨j, mem_membersOf_joinSio_self _ j _, rfl⟩
  · intro t
    set S2 := (Room.join_room (Room.create_room s c code).1 j code).1 with hS2def
    have h2 : lookupA S2.activeRooms code = some ⟨[c] ++ [j], true⟩ := by
      rw [hS2def, hJ]
      exact lookupA_setA_self _ _ _
    simp only [Room.join_room, h2]
    simp

/-- **C10**: `joinRoom` performs no identity check — `createRoom` produces a
one-occupant unlocked room, and joining such a room succeeds for *every*
joiner (the creator included), yielding the occupant list `[c, j]` — the
same identifier twice when `j = c` — and locking the room. -/
theorem c10_joinRoom_no_identity_check (s : Room.RState) (c code : String) :
    lookupA (Room.create_room s c code).1.activeRooms code = some ⟨[c], false⟩ ∧
    (∀ (s2 : Room.RState) (j : String),
       lookupA s2.activeRooms code = some ⟨[c], false⟩ →
       lookupA (Room.join_room s2 j code).1.activeRooms code = some ⟨[c, j], true⟩ ∧
       ∀ e m, Room.REvent.errorMsg e m ∉ (Room.join_room s2 j code).2) := by
  refine ⟨lookupA_setA_self _ _ _, ?_⟩
  intro s2 j h
  have hJ : Room.join_room s2 j code =
      ({ s2 with
           activeRooms := setA s2.activeRooms code ⟨[c] ++ [j], true⟩,
           sioRooms := joinSio s2.sioRooms j code },
       (membersOf (joinSio s2.sioRooms j code) code).map
         (fun m => Room.REvent.start_chat m)) := by
    simp only [Room.join_room, h]
    rw [if_neg ?hc]
    case hc =>
      rintro (hl | hn)
      · exact Bool.false_ne_true hl
      · simp at hn
  constructor
  · rw [hJ]
    exact lookupA_setA_self _ _ _
  · intro e m
    rw [hJ]
    simp

/-- **C10** witness: the creator joins its own fresh room; the occupant
list holds the same identifier twice and the room is locked. -/
theorem c10_joinRoom_no_identity_check_witness :
    lookupA (Room.join_room (Room.create_room Room.RState.init ("a") ("123456")).1
        ("a") ("123456")).1.activeRooms ("123456")
      = some ⟨["a", "a"], true⟩ := by
  have h := c10_joinRoom_no_identity_check Room.RState.init ("a") ("123456")
  exact (h.2 (Room.create_room Room.RState.init ("a") ("123456")).1 ("a") h.1).1

/-- **C7**: disconnecting a member of a room session notifies every other
member of the room with `partner_left`, deletes the Room record — so that
every subsequent `joinRoom` with that code fails with NotFound and leaves
the state unchanged — and removes the disconnected socket's membership. -/
theorem c7_disconnect_dissolves (s : Room.RState) (a b code : String)
    (room : Room.RoomRec)
    (h1 : roomsOf s.sioRooms a = [code])
    (h2 : lookupA s.activeRooms code = some room)
    (h3 : b ∈ membersOf s.sioRooms code)
    (h4 : b ≠ a) :
    Room.REvent.partner_left b ∈ (Room.disconnect s a).2 ∧
    lookupA (Room.disconnect s a).1.activeRooms code = none ∧
    (∀ j, Room.join_room (Room.disconnect s a).1 j code
        = ((Room.disconnect s a).1, [Room.REvent.errorMsg j Room.msgNotFound])) ∧
    lookupA (Room.disconnect s a).1.sioRooms a = none := by
  have hd : Room.disconnecting s a =
      ({ s with activeRooms := eraseA s.activeRooms code },
       ((membersOf s.sioRooms code).filter (fun m => decide (m ≠ a))).map
         (fun m => Room.REvent.partner_left m)) := by
    unfold Room.disconnecting
    rw [h1]
    simp [h2]
  have hev : (Room.disconnect s a).2 =
      ((membersOf s.sioRooms code).filter (fun m => decide (m ≠ a))).map
        (fun m => Room.REvent.partner_left m) := by
    simp only [Room.disconnect, hd]
  have har : (Room.disconnect s a).1.activeRooms = eraseA s.activeRooms code := by
    simp only [Room.disconnect, hd]
  have hnf : lookupA (Room.disconnect s a).1.activeRooms code = none := by
    rw [har]
    exact lookupA_eraseA_self _ _
  refine ⟨?_, hnf, ?_, ?_⟩
  · rw [hev]
    exact List.mem_map.mpr
      ⟨b, List.mem_filter.mpr ⟨h3, by simpa using h4⟩, rfl⟩
  · intro j
    simp [Room.join_room, hnf]
  · have hsr : (Room.disconnect s a).1.sioRooms
        = eraseA (Room.disconnecting s a).1.sioRooms a := by
      simp only [Room.disconnect]
    rw [hsr]
    exact lookupA_eraseA_self _ _

/-- **C7** witness: in the established room session of `rChatState`,
disconnecting A notifies B with `partner_left` and deletes room 482913. -/
theorem c7_disconnect_dissolves_witness :
    Room.REvent.partner_left ("B") ∈ (Room.disconnect rChatState ("A")).2 ∧
    lookupA (Room.disconnect rChatState ("A")).1.activeRooms ("482913") = none := by
  have h := c7_disconnect_dissolves rChatState ("A") ("B") ("482913")
    ⟨["A", "B"], true⟩ rfl rfl (by decide) (by decide)
  exact ⟨h.1, h.2.1⟩

/-- **C8**: the disconnect cascade is idempotent — for a connection whose
queue entries, room memberships, and sessions are already gone, running it
(again) raises no exception (the handlers are total functions), changes no
state, and emits no notification, in both server variants. -/
theorem c8_disconnect_idempotent :
    (∀ (s : Match.MState) (sid : String),
       lookupA s.sioRooms sid = none → sid ∉ s.connected →
       (∀ e, sid ∉ Match.getQ s ("vent") e ∧ sid ∉ Match.getQ s ("listen") e) →
       Match.disconnect s sid = (s, [])) ∧
    (∀ (s : Room.RState) (sid : String),
       lookupA s.sioRooms sid = none → sid ∉ s.connected →
       Room.disconnect s sid = (s, [])) := by
  constructor
  · intro s sid hnr hnc hq
    have hh : Match.disconnectHandler s sid = [] := by
      unfold Match.disconnectHandler roomsOf
      rw [hnr]
      rfl
    have hf : s.connected.filter (fun c => decide (c ≠ sid)) = s.connected :=
      List.filter_eq_self.mpr (fun a ha => by
        simp only [decide_eq_true_eq]
        exact fun h => hnc (h ▸ ha))
    have he : eraseA s.sioRooms sid = s.sioRooms := eraseA_of_lookupA_none _ _ hnr
    unfold Match.disconnect
    rw [hh, hf, he]
  · intro s sid hnr hnc
    have hro : roomsOf s.sioRooms sid = [] := by
      unfold roomsOf
      rw [hnr]
      rfl
    have hd : Room.disconnecting s sid = (s, []) := by
      unfold Room.disconnecting
      rw [hro]
      rfl
    have hf : s.connected.filter (fun c => decide (c ≠ sid)) = s.connected :=
      List.filter_eq_self.mpr (fun a ha => by
        simp only [decide_eq_true_eq]
        exact fun h => hnc (h ▸ ha))
    have he : eraseA s.sioRooms sid = s.sioRooms := eraseA_of_lookupA_none _ _ hnr
    simp only [Room.disconnect, hd]
    rw [hf, he]

/-- **C8** witness: the cascade on an already-removed connection is a
no-op on both servers' initial states. -/
theorem c8_disconnect_idempotent_witness :
    Match.disconnect Match.MState.init ("a") = (Match.MState.init, []) ∧
    Room.disconnect Room.RState.init ("a") = (Room.RState.init, []) := by
  refine ⟨c8_disconnect_idempotent.1 Match.MState.init ("a") rfl (by decide) ?_,
          c8_disconnect_idempotent.2 Room.RState.init ("a") rfl (by decide)⟩
  intro e
  constructor
  · simp [Match.getQ, lookupA]
  · simp [Match.getQ, lookupA]

/-- **C6**: message relay is content-preserving and defensive, in both
server variants — a `send_message` from a connection whose (sole) room holds
exactly it and one peer delivers the identical payload object to that peer
and to no one else, with no state change; a `send_message` from a connection
in no room delivers nothing and changes nothing. -/
theorem c6_relay_content_preserving :
    (∀ (s : Match.MState) (sid : String) (data : Payload),
       roomsOf s.sioRooms sid = [] →
       Match.send_message s sid data = (s, [])) ∧
    (∀ (s : Match.MState) (sid peer r : String) (rs : List String) (data : Payload),
       roomsOf s.sioRooms sid = r :: rs → peer ≠ sid →
       (membersOf s.sioRooms r = [sid, peer] ∨ membersOf s.sioRooms r = [peer, sid]) →
       Match.send_message s sid data = (s, [Match.MEvent.receive_message peer data])) ∧
    (∀ (s : Room.RState) (sid : String) (data : Payload),
       roomsOf s.sioRooms sid = [] →
       Room.send_message s sid data = (s, [])) ∧
    (∀ (s : Room.RState) (sid peer r : String) (rs : List String) (data : Payload),
       roomsOf s.sioRooms sid = r :: rs → peer ≠ sid →
       (membersOf s.sioRooms r = [sid, peer] ∨ membersOf s.sioRooms r = [peer, sid]) →
       Room.send_message s sid data = (s, [Room.REvent.receive_message peer data])) := by
  refine ⟨?_, ?_, ?_, ?_⟩
  · intro s sid data h
    unfold Match.send_message
    rw [h]
  · intro s sid peer r rs data hr hpeer hm
    unfold Match.send_message
    rw [hr]
    rcases hm with hm | hm <;> simp [hm, List.filter, hpeer]
  · intro s sid data h
    unfold Room.send_message
    rw [h]
  · intro s sid peer r rs data hr hpeer hm
    unfold Room.send_message
    rw [hr]
    rcases hm with hm | hm <;> simp [hm, List.filter, hpeer]

/-- **C6** witness: in concrete two-member sessions on each server, a text
payload is delivered verbatim to the single peer and the state is unchanged. -/
theorem c6_relay_content_preserving_witness :
    Match.send_message mChatState ("A") ⟨some ("hello"), none⟩
      = (mChatState, [Match.MEvent.receive_message ("B") ⟨some ("hello"), none⟩]) ∧
    Room.send_message rChatState ("A") ⟨some ("hello"), none⟩
      = (rChatState, [Room.REvent.receive_message ("B") ⟨some ("hello"), none⟩]) :=
  ⟨c6_relay_content_preserving.2.1 mChatState ("A") ("B") ("room_A_B") []
     ⟨some ("hello"), none⟩ rfl (by decide) (Or.inl rfl),
   c6_relay_content_preserving.2.2.2 rChatState ("A") ("B") ("482913") []
     ⟨some ("hello"), none⟩ rfl (by decide) (Or.inl rfl)⟩

end Echo

